import Mathlib

/-!
Verification development for the wasm-forge execution bridge.

The repository's visible source gives the Bridge Protocol Engine, the
Capability Policy, the Inference Client and the Execution Result Assembler
only as documentation (backend/README.md and the top-level README): the
backend modules (bridge.py, routes.py, ollama.py) are not present. Those
components are therefore modelled from the specification, as marked on each
definition. The sandbox launcher (scripts/run-python-wasm.sh) and the
frontend run path (frontend/src/api/api.js runPlugin, and the Runner page's
result handler) are present as source and are embedded directly.
-/

namespace WasmForge

/-- Modelled from the spec (section 3, CapabilityPolicy): the set of allowed
model identifiers, maximum prompt length, maximum AI-call count, and the
wall-clock timeout governing one run. The missing source is bridge.py /
config.py. -/
structure CapabilityPolicy where
  allowedModels : List String
  maxPromptLen : Nat
  maxCalls : Nat
  timeout : Nat
  deriving DecidableEq, Repr

/-- Modelled from the spec (section 3, BridgeFrame): the tagged, line-delimited
frame variants exchanged over the bridge. -/
inductive BridgeFrame
  | callRequest (model prompt : String)
  | callResponse (text : String)
  | callError (reason : String)
  | output (text : String)
  | protocolError (detail : String)
  deriving DecidableEq, Repr

/-- Modelled from the spec (section 4.2): a line emitted by the sandboxed
process, as the engine classifies it — a well-formed CallRequest frame, a
well-formed Output frame, or a line that fails to parse as a known frame
shape. -/
inductive PluginLine
  | callRequest (model prompt : String)
  | output (text : String)
  | malformed (raw : String)
  deriving DecidableEq, Repr

def PluginLine.isCallRequest : PluginLine → Bool
  | .callRequest _ _ => true
  | _ => false

def PluginLine.isOutput : PluginLine → Bool
  | .output _ => true
  | _ => false

/-- Modelled from the spec (section 4.3, Inference Client): the result of one
invoke(model, prompt) call — a text result or a typed failure. The missing
source is ollama.py. -/
inductive InferResult
  | ok (text : String)
  | unreachable
  | rejected (reason : String)
  | timedOut
  deriving DecidableEq, Repr

/-- Modelled from the spec (section 4.4): isModelAllowed. -/
def isModelAllowed (p : CapabilityPolicy) (id : String) : Bool :=
  p.allowedModels.contains id

/-- Modelled from the spec (section 4.4): isPromptLengthOk. -/
def isPromptLengthOk (p : CapabilityPolicy) (text : String) : Bool :=
  text.length ≤ p.maxPromptLen

/-- Modelled from the spec (section 4.4): hasCallQuota, over the per-run
ledger count. -/
def hasCallQuota (p : CapabilityPolicy) (ledger : Nat) : Bool :=
  ledger < p.maxCalls

/-- Modelled from the spec (section 4.2): the engine's validation of one
CallRequest, in the documented order — model allow-set first, then prompt
length, then remaining quota. Returns the CallError reason when the request
is rejected, none when it is accepted. -/
def validate (p : CapabilityPolicy) (ledger : Nat) (model prompt : String) :
    Option String :=
  if ¬ isModelAllowed p model then some "model not permitted"
  else if ¬ isPromptLengthOk p prompt then some "prompt too long"
  else if ¬ hasCallQuota p ledger then some "call budget exceeded"
  else none

/-- Modelled from the spec (sections 4.2 and 4.3): handling of one
CallRequest. A rejected request leaves the ledger unchanged and produces a
CallError frame; a valid request increments the ledger, then is forwarded to
the Inference Client, whose failures are themselves surfaced as CallError
frames. The returned frame is the single response written back for this
request. -/
def handleRequest (p : CapabilityPolicy) (infer : String → String → InferResult)
    (ledger : Nat) (model prompt : String) : Nat × BridgeFrame :=
  match validate p ledger model prompt with
  | some reason => (ledger, .callError reason)
  | none =>
    match infer model prompt with
    | .ok text => (ledger + 1, .callResponse text)
    | .unreachable => (ledger + 1, .callError "backend unreachable")
    | .rejected r => (ledger + 1, .callError ("rejected upstream: " ++ r))
    | .timedOut => (ledger + 1, .callError "backend timeout")

/-- Modelled from the spec (sections 4.2 and 4.5): how one run's frame
exchange ends — terminal Output frame, protocol violation, process exit
before Output, or timeout expiry. -/
inductive TerminalEvent
  | outputFrame (text : String)
  | protocolViolation (detail : String)
  | processExit (code : Int)
  | timedOut
  deriving DecidableEq, Repr

/-- The outcome of driving the bridge conversation: the terminal event, the
final CallLedger count, the response frames written back into the process's
input stream (one per accepted-or-rejected CallRequest), and the prefix of
process lines the engine actually read. -/
structure BridgeOutcome where
  terminal : TerminalEvent
  ledger : Nat
  responses : List BridgeFrame
  consumed : List PluginLine
  deriving DecidableEq, Repr

/-- Modelled from the spec (section 4.2, Bridge Protocol Engine): the engine
reads the process's output line by line under a fuel bound standing for the
wall-clock timeout. A CallRequest line is answered with exactly one response
frame and the dialog continues; an Output line ends the run successfully and
no further output is read; a malformed line ends the run as a protocol
violation with no recovery. When the process has no further lines, the run
ends with the process's exit (when it exits) or with timeout expiry (when it
never exits); exhausted fuel is timeout expiry. -/
def bridgeLoop (p : CapabilityPolicy) (infer : String → String → InferResult) :
    Nat → Nat → List PluginLine → Bool → Int → BridgeOutcome
  | 0, ledger, _, _, _ => ⟨.timedOut, ledger, [], []⟩
  | _ + 1, ledger, [], exits, code =>
    if exits then ⟨.processExit code, ledger, [], []⟩
    else ⟨.timedOut, ledger, [], []⟩
  | fuel + 1, ledger, line :: rest, exits, code =>
    match line with
    | .output t => ⟨.outputFrame t, ledger, [], [.output t]⟩
    | .malformed raw => ⟨.protocolViolation raw, ledger, [], [.malformed raw]⟩
    | .callRequest m pr =>
      let step := handleRequest p infer ledger m pr
      let o := bridgeLoop p infer fuel step.1 rest exits code
      ⟨o.terminal, o.ledger, step.2 :: o.responses, .callRequest m pr :: o.consumed⟩

/-- Modelled from the spec (section 3, ExecutionResult): outcome kind. -/
inductive OutcomeKind
  | Success
  | ToolError
  | Timeout
  | ProtocolViolation
  | SandboxUnavailable
  deriving DecidableEq, Repr

/-- Modelled from the spec (section 3, ExecutionResult): outcome kind, output
text if any, diagnostic message, elapsed duration in seconds. -/
structure ExecutionResult where
  kind : OutcomeKind
  output : Option String
  error : Option String
  elapsed : ℚ
  deriving DecidableEq, Repr

/-- Modelled from the spec (section 4.5, Execution Result Assembler): the
mapping from launch status and terminal event to the one ExecutionResult of
the run. The missing source is bridge.py. -/
def assemble (launchFailed : Bool) (terminal : TerminalEvent) (elapsed : ℚ) :
    ExecutionResult :=
  if launchFailed then
    ⟨.SandboxUnavailable, none, some "isolated runtime failed to launch", elapsed⟩
  else
    match terminal with
    | .outputFrame t => ⟨.Success, some t, none, elapsed⟩
    | .timedOut => ⟨.Timeout, none, some "execution timed out", elapsed⟩
    | .protocolViolation d => ⟨.ProtocolViolation, none, some d, elapsed⟩
    | .processExit c =>
      ⟨.ToolError, none, some ("process exited before Output, code " ++ toString c), elapsed⟩

/-- Modelled from the spec (section 4.1, step 4): every exit path of the run
releases the process handle — the process is reaped after a clean Output,
forcibly killed on timeout, and torn down on violation or early exit. -/
inductive ProcState
  | running
  | terminated
  deriving DecidableEq, Repr

/-- Modelled from the spec (section 4.1, step 4): the teardown applied to the
sandboxed process for each way the run can end. -/
def teardown : TerminalEvent → ProcState
  | .outputFrame _ => .terminated
  | .timedOut => .terminated
  | .protocolViolation _ => .terminated
  | .processExit _ => .terminated

/-- The full per-run outcome: the single ExecutionResult, the final ledger
count, the response frames delivered into the process, and the final state of
the sandboxed process. -/
structure RunOutput where
  result : ExecutionResult
  ledger : Nat
  responses : List BridgeFrame
  procFinal : ProcState
  deriving DecidableEq, Repr

/-- Modelled from the spec (sections 2 and 4): one whole run. A failed launch
of the isolated runtime yields SandboxUnavailable with no process; otherwise
the Bridge Protocol Engine drives the dialog with fuel equal to the policy's
timeout, the Result Assembler maps the terminal event to the result, and the
process is torn down on every path. -/
def runExecution (p : CapabilityPolicy) (infer : String → String → InferResult)
    (launchOk : Bool) (lines : List PluginLine) (exits : Bool) (code : Int)
    (elapsed : ℚ) : RunOutput :=
  if launchOk then
    let o := bridgeLoop p infer p.timeout 0 lines exits code
    ⟨assemble false o.terminal elapsed, o.ledger, o.responses, teardown o.terminal⟩
  else
    ⟨assemble true .timedOut elapsed, 0, [], .terminated⟩

/-! Embedding of scripts/run-python-wasm.sh: the sandbox launcher. The host
filesystem primitives (file existence, dirname via realpath, basename) are
parameters of the embedding. -/

/-- The interpreter image path hard-coded in run-python-wasm.sh. -/
def wasmPython : String := "/opt/wasmedge-python/bin/python-3.11.1-wasmedge-aot.wasm"

/-- The argument list of the wasmedge invocation in run-python-wasm.sh,
lines 22-28: two directory mounts at fixed logical paths, the time limit and
memory page limit, the interpreter image, and the script path. -/
def wasmedgeArgs (scriptDir scriptName : String) : List String :=
  ["--dir", "/:/opt/wasmedge-python",
   "--dir", "/scripts:" ++ scriptDir,
   "--time-limit", "10000",
   "--memory-page-limit", "2048",
   wasmPython,
   "/scripts/" ++ scriptName]

/-- What one invocation of run-python-wasm.sh does: exit 1 on a missing
argument, exit 2 on a missing file, otherwise spawn wasmedge with the given
argument list. -/
inductive LaunchOutcome
  | usageError
  | fileNotFound
  | spawn (args : List String)
  deriving DecidableEq, Repr

/-- Embedding of run-python-wasm.sh: check the argument, check the file
exists, then spawn wasmedge on the file's directory and base name. -/
def runPythonWasm (arg : Option String) (fileExists : String → Bool)
    (dirOfFile baseOfFile : String → String) : LaunchOutcome :=
  match arg with
  | none => .usageError
  | some f =>
    if f = "" then .usageError
    else if ¬ fileExists f then .fileNotFound
    else .spawn (wasmedgeArgs (dirOfFile f) (baseOfFile f))

/-- Modelled from the spec (sections 4.1 and 9, plus the backend README's
security model): a capability attached to the sandboxed process. WasmEdge
attaches capabilities only from explicit command-line grants; the directory
grants come from the --dir options, the two stdio streams are always
connected to the host, and a network interface would require an explicit
grant that the launcher never passes. -/
inductive Capability
  | dirMount (mapping : String)
  | stdio
  | network
  deriving DecidableEq, Repr

/-- The directory grants of a wasmedge argument list: each value that
follows a --dir option. -/
def dirCaps : List String → List Capability
  | [] => []
  | [_] => []
  | a :: m :: rest =>
    if a = "--dir" then .dirMount m :: dirCaps rest
    else dirCaps (m :: rest)

/-- Modelled from the spec (section 4.1): the capability set of the process
spawned with the given wasmedge arguments — stdio plus the granted directory
mounts, and nothing else. -/
def capsOf (args : List String) : List Capability :=
  .stdio :: dirCaps args

/-! Embedding of the caller-facing result serialization (modelled from the
spec, section 6, since routes.py is not in the visible source) and of the
frontend run path (frontend/src/api/api.js runPlugin and the Runner page's
result handler, both present as source). JavaScript objects are embedded as
association lists over a small value type, so that reading an absent field
(undefined) and JavaScript truthiness are represented faithfully. -/

/-- A JSON/JavaScript value as the run path uses them. -/
inductive JsVal
  | str (s : String)
  | num (q : ℚ)
  | bool (b : Bool)
  | null
  deriving DecidableEq, Repr

/-- A JavaScript object as a list of fields. -/
abbrev JsObj := List (String × JsVal)

/-- Property read: obj.key, none standing for undefined. -/
def jsGet (obj : JsObj) (key : String) : Option JsVal :=
  (obj.find? (fun kv => kv.1 = key)).map (·.2)

/-- JavaScript truthiness of a value. -/
def truthy : JsVal → Bool
  | .str s => s ≠ ""
  | .num q => q ≠ 0
  | .bool b => b
  | .null => false

/-- JavaScript truthiness of a possibly-undefined value. -/
def truthyOpt : Option JsVal → Bool
  | some v => truthy v
  | none => false

/-- JavaScript a || b on a possibly-undefined left operand. -/
def jsOr (v : Option JsVal) (dflt : JsVal) : JsVal :=
  match v with
  | some x => if truthy x then x else dflt
  | none => dflt

/-- An optional string as a JSON value: string or null. -/
def optStr : Option String → JsVal
  | some s => .str s
  | none => .null

/-- Modelled from the spec (section 7): the error_type tag of a non-success
outcome kind, as surfaced in the serialized result. -/
def kindTag : OutcomeKind → String
  | .Success => "success"
  | .ToolError => "tool_error"
  | .Timeout => "timeout"
  | .ProtocolViolation => "protocol_violation"
  | .SandboxUnavailable => "sandbox_unavailable"

/-- Modelled from the spec (section 6): the serialization of an
ExecutionResult returned by the run API — exactly the record with fields
success, output, error, error_type, elapsed_seconds. The missing source is
routes.py. -/
def serializeResult (r : ExecutionResult) : JsObj :=
  [("success", .bool (r.kind = .Success)),
   ("output", optStr r.output),
   ("error", optStr r.error),
   ("error_type", if r.kind = .Success then .null else .str (kindTag r.kind)),
   ("elapsed_seconds", .num r.elapsed)]

/-- Embedding of frontend/src/api/api.js lines 91-97: runPlugin maps the
backend response object to the frontend record with fields status, result,
error, error_type. -/
def runPluginObj (data : JsObj) : JsObj :=
  [("status", if truthyOpt (jsGet data "success") then .str "success" else .str "error"),
   ("result", jsOr (jsGet data "output") (.str "")),
   ("error", jsOr (jsGet data "error") .null),
   ("error_type", jsOr (jsGet data "error_type") .null)]

/-- What the Runner page stores for display after a run. -/
structure RunnerResult where
  ok : Bool
  displayed : JsVal
  deriving DecidableEq, Repr

/-- Embedding of the Runner page's result handler (handleRun in
backend/README.md's appended Runner source, the res branch): on
status === "success" display res.result; otherwise display
res.message || "Execution failed". -/
def handleRunResult (res : JsObj) : RunnerResult :=
  if jsGet res "status" = some (.str "success") then
    ⟨true, (jsGet res "result").getD .null⟩
  else
    ⟨false, jsOr (jsGet res "message") (.str "Execution failed")⟩

/-! Helper lemmas about the engine. -/

/-- A request that validation accepts still has quota: the ledger is below
the policy's maxCalls. -/
theorem validate_none_lt (p : CapabilityPolicy) (ledger : Nat) (m pr : String)
    (h : validate p ledger m pr = none) : ledger < p.maxCalls := by
  by_cases h1 : isModelAllowed p m
  · by_cases h2 : isPromptLengthOk p pr
    · by_cases h3 : hasCallQuota p ledger
      · simpa [hasCallQuota] using h3
      · simp [validate, h1, h2, h3] at h
    · simp [validate, h1, h2] at h
  · simp [validate, h1] at h

/-- Handling one request preserves the ledger bound. -/
theorem handleRequest_ledger_le (p : CapabilityPolicy)
    (infer : String → String → InferResult) (ledger : Nat) (m pr : String)
    (h : ledger ≤ p.maxCalls) :
    (handleRequest p infer ledger m pr).1 ≤ p.maxCalls := by
  unfold handleRequest
  cases hv : validate p ledger m pr with
  | some r => simpa using h
  | none =>
    have hlt := validate_none_lt p ledger m pr hv
    cases infer m pr <;> simpa using hlt

/-- A request seen with no remaining quota is answered by a CallError and
leaves the ledger unchanged. -/
theorem handleRequest_over_quota (p : CapabilityPolicy)
    (infer : String → String → InferResult) (ledger : Nat) (m pr : String)
    (h : p.maxCalls ≤ ledger) :
    (handleRequest p infer ledger m pr).1 = ledger
    ∧ ∃ r, (handleRequest p infer ledger m pr).2 = .callError r := by
  have hq : ¬ hasCallQuota p ledger := by simp [hasCallQuota]; omega
  unfold handleRequest
  cases hv : validate p ledger m pr with
  | some r => exact ⟨rfl, r, rfl⟩
  | none => exact absurd (validate_none_lt p ledger m pr hv) (by omega)

/-- The ledger never exceeds maxCalls along the bridge dialog. -/
theorem bridgeLoop_ledger_le (p : CapabilityPolicy)
    (infer : String → String → InferResult) :
    ∀ (fuel ledger : Nat) (lines : List PluginLine) (exits : Bool) (code : Int),
      ledger ≤ p.maxCalls →
      (bridgeLoop p infer fuel ledger lines exits code).ledger ≤ p.maxCalls := by
  intro fuel
  induction fuel with
  | zero => intro ledger lines exits code h; simpa [bridgeLoop] using h
  | succ n ih =>
    intro ledger lines exits code h
    cases lines with
    | nil =>
      by_cases he : exits <;> simp [bridgeLoop, he] <;> exact h
    | cons line rest =>
      cases line with
      | output t => simpa [bridgeLoop] using h
      | malformed raw => simpa [bridgeLoop] using h
      | callRequest m pr =>
        simp only [bridgeLoop]
        exact ih _ rest exits code (handleRequest_ledger_le p infer ledger m pr h)

/-- Every consumed request line is answered by exactly one response frame:
the engine writes as many response frames as it read request lines. -/
theorem bridgeLoop_resp_eq_req (p : CapabilityPolicy)
    (infer : String → String → InferResult) :
    ∀ (fuel ledger : Nat) (lines : List PluginLine) (exits : Bool) (code : Int),
      (bridgeLoop p infer fuel ledger lines exits code).responses.length
        = ((bridgeLoop p infer fuel ledger lines exits code).consumed.filter
            PluginLine.isCallRequest).length := by
  intro fuel
  induction fuel with
  | zero => intro ledger lines exits code; simp [bridgeLoop]
  | succ n ih =>
    intro ledger lines exits code
    cases lines with
    | nil => by_cases he : exits <;> simp [bridgeLoop, he]
    | cons line rest =>
      cases line with
      | output t => simp [bridgeLoop, PluginLine.isCallRequest]
      | malformed raw => simp [bridgeLoop, PluginLine.isCallRequest]
      | callRequest m pr =>
        simp only [bridgeLoop]
        simp [PluginLine.isCallRequest, ih _ rest exits code]

/-- The engine reads at most one Output line per run. -/
theorem bridgeLoop_outputs_le_one (p : CapabilityPolicy)
    (infer : String → String → InferResult) :
    ∀ (fuel ledger : Nat) (lines : List PluginLine) (exits : Bool) (code : Int),
      ((bridgeLoop p infer fuel ledger lines exits code).consumed.filter
          PluginLine.isOutput).length ≤ 1 := by
  intro fuel
  induction fuel with
  | zero => intro ledger lines exits code; simp [bridgeLoop]
  | succ n ih =>
    intro ledger lines exits code
    cases lines with
    | nil => by_cases he : exits <;> simp [bridgeLoop, he]
    | cons line rest =>
      cases line with
      | output t => simp [bridgeLoop, PluginLine.isOutput]
      | malformed raw => simp [bridgeLoop, PluginLine.isOutput]
      | callRequest m pr =>
        simp only [bridgeLoop]
        simpa [PluginLine.isOutput] using ih _ rest exits code

/-- The engine reads at most fuel-many lines. -/
theorem bridgeLoop_consumed_le (p : CapabilityPolicy)
    (infer : String → String → InferResult) :
    ∀ (fuel ledger : Nat) (lines : List PluginLine) (exits : Bool) (code : Int),
      (bridgeLoop p infer fuel ledger lines exits code).consumed.length ≤ fuel := by
  intro fuel
  induction fuel with
  | zero => intro ledger lines exits code; simp [bridgeLoop]
  | succ n ih =>
    intro ledger lines exits code
    cases lines with
    | nil => by_cases he : exits <;> simp [bridgeLoop, he]
    | cons line rest =>
      cases line with
      | output t => simp [bridgeLoop]
      | malformed raw => simp [bridgeLoop]
      | callRequest m pr =>
        simp only [bridgeLoop]
        simpa using Nat.succ_le_succ (ih _ rest exits code)

/-- Once the Output line is reached, nothing after it matters: the whole
outcome is independent of the remaining process activity, of whether the
process would exit, and of its exit code. -/
theorem bridgeLoop_stops_at_output (p : CapabilityPolicy)
    (infer : String → String → InferResult) :
    ∀ (fuel ledger : Nat) (pre : List PluginLine) (t : String)
      (rest rest' : List PluginLine) (exits exits' : Bool) (code code' : Int),
      bridgeLoop p infer fuel ledger (pre ++ .output t :: rest) exits code
        = bridgeLoop p infer fuel ledger (pre ++ .output t :: rest') exits' code' := by
  intro fuel
  induction fuel with
  | zero => intros; simp [bridgeLoop]
  | succ n ih =>
    intro ledger pre t rest rest' exits exits' code code'
    cases pre with
    | nil => simp [bridgeLoop]
    | cons line pre' =>
      cases line with
      | output u => simp [bridgeLoop]
      | malformed raw => simp [bridgeLoop]
      | callRequest m pr =>
        simp only [List.cons_append, bridgeLoop, List.append_eq]
        rw [ih _ pre' t rest rest' exits exits' code code']

/-- A dialog consisting of request lines followed by an Output line, with
enough fuel, ends at that Output frame, with one response per request. -/
theorem bridgeLoop_run_to_output (p : CapabilityPolicy)
    (infer : String → String → InferResult) :
    ∀ (pre : List PluginLine) (fuel ledger : Nat) (t : String)
      (rest : List PluginLine) (exits : Bool) (code : Int),
      (∀ l ∈ pre, l.isCallRequest = true) → pre.length < fuel →
      (bridgeLoop p infer fuel ledger (pre ++ .output t :: rest) exits code).terminal
          = .outputFrame t
      ∧ (bridgeLoop p infer fuel ledger (pre ++ .output t :: rest) exits code).responses.length
          = pre.length := by
  intro pre
  induction pre with
  | nil =>
    intro fuel ledger t rest exits code _ hf
    cases fuel with
    | zero => omega
    | succ n => simp [bridgeLoop]
  | cons line pre' ih =>
    intro fuel ledger t rest exits code hall hf
    have hline := hall line (List.mem_cons_self _ _)
    cases line with
    | output u => simp [PluginLine.isCallRequest] at hline
    | malformed raw => simp [PluginLine.isCallRequest] at hline
    | callRequest m pr =>
      cases fuel with
      | zero => simp at hf
      | succ n =>
        simp only [List.cons_append, bridgeLoop]
        have hrec := ih n (handleRequest p infer ledger m pr).1 t rest exits code
          (fun l hl => hall l (List.mem_cons_of_mem _ hl))
          (by simpa using Nat.lt_of_succ_lt_succ hf)
        exact ⟨hrec.1, by simp [hrec.2]⟩

/-- A dialog whose lines are all request lines, from a process that never
exits, always ends in timeout expiry. -/
theorem bridgeLoop_no_output_timeout (p : CapabilityPolicy)
    (infer : String → String → InferResult) :
    ∀ (fuel ledger : Nat) (lines : List PluginLine) (code : Int),
      (∀ l ∈ lines, l.isCallRequest = true) →
      (bridgeLoop p infer fuel ledger lines false code).terminal = .timedOut := by
  intro fuel
  induction fuel with
  | zero => intros; simp [bridgeLoop]
  | succ n ih =>
    intro ledger lines code hall
    cases lines with
    | nil => simp [bridgeLoop]
    | cons line rest =>
      have hline := hall line (List.mem_cons_self _ _)
      cases line with
      | output u => simp [PluginLine.isCallRequest] at hline
      | malformed raw => simp [PluginLine.isCallRequest] at hline
      | callRequest m pr =>
        simp only [bridgeLoop]
        exact ih _ rest code (fun l hl => hall l (List.mem_cons_of_mem _ hl))

/-- Every way a run can end tears the process down. -/
theorem teardown_terminated : ∀ t, teardown t = .terminated := by
  intro t; cases t <;> rfl

/-! Concrete fixtures, shared by witnesses: the policy of the spec's
concrete scenarios, and a backend that always answers. -/

def policy1 : CapabilityPolicy := ⟨["m1"], 10, 1, 5⟩

def inferOk : String → String → InferResult := fun _ _ => .ok "R"

/-- C1: the CallLedger count never exceeds CapabilityPolicy.maxCalls; every
request line the process emits and the engine reads receives exactly one
response frame; a request arriving once the quota is spent is answered with a
CallError frame, not silently dropped, and leaves the ledger unchanged; and
such a run may still finish with a successful Output result. -/
theorem c1_call_quota_enforced (p : CapabilityPolicy)
    (infer : String → String → InferResult) (lines : List PluginLine)
    (exits : Bool) (code : Int) (elapsed : ℚ) :
    (runExecution p infer true lines exits code elapsed).ledger ≤ p.maxCalls
    ∧ (runExecution p infer true lines exits code elapsed).responses.length
        = ((bridgeLoop p infer p.timeout 0 lines exits code).consumed.filter
            PluginLine.isCallRequest).length
    ∧ (∀ ledger m pr, p.maxCalls ≤ ledger →
        (handleRequest p infer ledger m pr).1 = ledger
        ∧ ∃ r, (handleRequest p infer ledger m pr).2 = .callError r)
    ∧ (∀ t, (bridgeLoop p infer p.timeout 0 lines exits code).terminal = .outputFrame t →
        (runExecution p infer true lines exits code elapsed).result.kind = .Success) := by
  refine ⟨?_, ?_, ?_, ?_⟩
  · simpa [runExecution] using
      bridgeLoop_ledger_le p infer p.timeout 0 lines exits code (Nat.zero_le _)
  · simpa [runExecution] using bridgeLoop_resp_eq_req p infer p.timeout 0 lines exits code
  · intro ledger m pr h
    exact handleRequest_over_quota p infer ledger m pr h
  · intro t ht
    simp [runExecution, ht, assemble]

theorem c1_call_quota_enforced_witness :
    (runExecution policy1 inferOk true
        [PluginLine.callRequest "m1" "hi", .callRequest "m1" "hi", .output "ok"]
        true 0 1).ledger ≤ policy1.maxCalls
    ∧ (∃ r, (handleRequest policy1 inferOk 1 "m1" "hi").2 = .callError r)
    ∧ (runExecution policy1 inferOk true
        [PluginLine.callRequest "m1" "hi", .callRequest "m1" "hi", .output "ok"]
        true 0 1).result.kind = .Success := by
  obtain ⟨h1, h2, h3, h4⟩ := c1_call_quota_enforced policy1 inferOk
    [PluginLine.callRequest "m1" "hi", .callRequest "m1" "hi", .output "ok"] true 0 1
  exact ⟨h1, (h3 1 "m1" "hi" (by decide)).2, h4 "ok" (by decide)⟩

/-- C2: at most one Output frame is accepted per run — the engine reads at
most one Output line, once an Output line is reached the whole outcome is
independent of all remaining process activity, exit behavior and exit code,
and a run whose dialog ends at an Output frame terminates successfully with
that frame's text as the run's result. -/
theorem c2_single_output (p : CapabilityPolicy)
    (infer : String → String → InferResult) (fuel ledger : Nat)
    (pre : List PluginLine) (t : String) (rest rest' : List PluginLine)
    (exits exits' : Bool) (code code' : Int) (lines : List PluginLine)
    (elapsed : ℚ) :
    ((bridgeLoop p infer fuel ledger lines exits code).consumed.filter
        PluginLine.isOutput).length ≤ 1
    ∧ bridgeLoop p infer fuel ledger (pre ++ .output t :: rest) exits code
        = bridgeLoop p infer fuel ledger (pre ++ .output t :: rest') exits' code'
    ∧ (∀ u, (bridgeLoop p infer p.timeout 0 lines exits code).terminal = .outputFrame u →
        (runExecution p infer true lines exits code elapsed).result
          = ⟨.Success, some u, none, elapsed⟩) := by
  refine ⟨bridgeLoop_outputs_le_one p infer fuel ledger lines exits code,
    bridgeLoop_stops_at_output p infer fuel ledger pre t rest rest' exits exits' code code', ?_⟩
  intro u hu
  simp [runExecution, hu, assemble]

theorem c2_single_output_witness :
    ((bridgeLoop policy1 inferOk 5 0 [PluginLine.output "ok"] true 0).consumed.filter
        PluginLine.isOutput).length ≤ 1
    ∧ (runExecution policy1 inferOk true [PluginLine.output "ok"] true 0 1).result
        = ⟨.Success, some "ok", none, 1⟩ := by
  obtain ⟨h1, h2, h3⟩ := c2_single_output policy1 inferOk 5 0 [] "ok" [] [] true true 0 0
    [PluginLine.output "ok"] 1
  exact ⟨h1, h3 "ok" (by decide)⟩

/-- C3: every run yields exactly one ExecutionResult, and the Result
Assembler maps launch failure to SandboxUnavailable, a terminal Output frame
to Success, timeout expiry before Output to Timeout, a malformed frame to
ProtocolViolation, and process exit before Output to ToolError. -/
theorem c3_result_mapping (p : CapabilityPolicy)
    (infer : String → String → InferResult) (lines : List PluginLine)
    (exits : Bool) (code : Int) (elapsed : ℚ) :
    (∀ launchOk : Bool, ∃! r : ExecutionResult,
        (runExecution p infer launchOk lines exits code elapsed).result = r)
    ∧ (runExecution p infer false lines exits code elapsed).result.kind = .SandboxUnavailable
    ∧ (∀ t, (bridgeLoop p infer p.timeout 0 lines exits code).terminal = .outputFrame t →
        (runExecution p infer true lines exits code elapsed).result.kind = .Success)
    ∧ ((bridgeLoop p infer p.timeout 0 lines exits code).terminal = .timedOut →
        (runExecution p infer true lines exits code elapsed).result.kind = .Timeout)
    ∧ (∀ d, (bridgeLoop p infer p.timeout 0 lines exits code).terminal = .protocolViolation d →
        (runExecution p infer true lines exits code elapsed).result.kind = .ProtocolViolation)
    ∧ (∀ c, (bridgeLoop p infer p.timeout 0 lines exits code).terminal = .processExit c →
        (runExecution p infer true lines exits code elapsed).result.kind = .ToolError) := by
  refine ⟨fun launchOk => ⟨_, rfl, fun y hy => hy.symm⟩, ?_, ?_, ?_, ?_, ?_⟩
  · simp [runExecution, assemble]
  · intro t ht
    simp [runExecution, ht, assemble]
  · intro ht
    simp [runExecution, ht, assemble]
  · intro d hd
    simp [runExecution, hd, assemble]
  · intro c hc
    simp [runExecution, hc, assemble]

theorem c3_result_mapping_witness :
    (runExecution policy1 inferOk false [] true 0 1).result.kind = .SandboxUnavailable
    ∧ (runExecution policy1 inferOk true [PluginLine.output "ok"] true 0 1).result.kind
        = .Success
    ∧ (runExecution policy1 inferOk true [] false 0 1).result.kind = .Timeout
    ∧ (runExecution policy1 inferOk true [PluginLine.malformed "?!"] false 0 1).result.kind
        = .ProtocolViolation
    ∧ (runExecution policy1 inferOk true [] true 3 1).result.kind = .ToolError := by
  refine ⟨(c3_result_mapping policy1 inferOk [] true 0 1).2.1,
    (c3_result_mapping policy1 inferOk [PluginLine.output "ok"] true 0 1).2.2.1 "ok" (by decide),
    (c3_result_mapping policy1 inferOk [] false 0 1).2.2.2.1 (by decide),
    (c3_result_mapping policy1 inferOk [PluginLine.malformed "?!"] false 0 1).2.2.2.2.1
      "?!" (by decide),
    (c3_result_mapping policy1 inferOk [] true 3 1).2.2.2.2.2 3 (by decide)⟩

/-- C4: Inference Client failures and per-call policy rejections are
recovered locally — a backend-unreachable failure and a disallowed model are
each answered with a CallError frame, every such request still receives its
response, the dialog continues, and a subsequent Output makes the final
result a Success with that output. -/
theorem c4_failures_recovered (p : CapabilityPolicy)
    (infer : String → String → InferResult) (reqs : List (String × String))
    (t : String) (code : Int) (elapsed : ℚ)
    (hfuel : reqs.length < p.timeout) :
    (runExecution p infer true
        (reqs.map (fun r => PluginLine.callRequest r.1 r.2) ++ [.output t])
        false code elapsed).result = ⟨.Success, some t, none, elapsed⟩
    ∧ (runExecution p infer true
        (reqs.map (fun r => PluginLine.callRequest r.1 r.2) ++ [.output t])
        false code elapsed).responses.length = reqs.length
    ∧ (∀ ledger m pr, validate p ledger m pr = none → infer m pr = .unreachable →
        (handleRequest p infer ledger m pr).2 = .callError "backend unreachable")
    ∧ (∀ ledger m pr, isModelAllowed p m = false →
        (handleRequest p infer ledger m pr).2 = .callError "model not permitted") := by
  have hall : ∀ l ∈ reqs.map (fun r => PluginLine.callRequest r.1 r.2),
      l.isCallRequest = true := by
    intro l hl
    simp only [List.mem_map] at hl
    obtain ⟨r, _, rfl⟩ := hl
    rfl
  have hlen : (reqs.map (fun r => PluginLine.callRequest r.1 r.2)).length < p.timeout := by
    simpa using hfuel
  have hrun := bridgeLoop_run_to_output p infer
    (reqs.map (fun r => PluginLine.callRequest r.1 r.2)) p.timeout 0 t [] false code hall hlen
  refine ⟨?_, ?_, ?_, ?_⟩
  · simp [runExecution, hrun.1, assemble]
  · simpa [runExecution] using hrun.2
  · intro ledger m pr hv hi
    simp [handleRequest, hv, hi]
  · intro ledger m pr hm
    simp [handleRequest, validate, hm]

theorem c4_failures_recovered_witness :
    (runExecution policy1 inferOk true
        [PluginLine.callRequest "m2" "hi", .output "handled"] false 0 1).result
      = ⟨.Success, some "handled", none, 1⟩
    ∧ (handleRequest policy1 inferOk 0 "m2" "hi").2 = .callError "model not permitted" := by
  obtain ⟨h1, h2, h3, h4⟩ :=
    c4_failures_recovered policy1 inferOk [("m2", "hi")] "handled" 0 1 (by decide)
  exact ⟨by simpa using h1, h4 0 "m2" "hi" (by decide)⟩

/-- C5 counterexample: a plugin that emits one malformed line and then
nothing, never emitting an Output frame and never exiting, ends with result
kind ProtocolViolation, not Timeout, contradicting the claim that every
no-Output never-exiting plugin's result kind is Timeout. -/
theorem c5_counterexample :
    (PluginLine.malformed "garbage").isOutput = false
    ∧ (runExecution policy1 inferOk true [PluginLine.malformed "garbage"] false 0 1).result.kind
        = .ProtocolViolation
    ∧ (runExecution policy1 inferOk true [PluginLine.malformed "garbage"] false 0 1).result.kind
        ≠ .Timeout := by
  exact ⟨rfl, by decide, by decide⟩

/-- C5 (amended): a plugin that never exits and whose every line is a
well-formed CallRequest (so it never emits Output and never emits a
malformed line) is always timed out — the engine reads at most timeout-many
lines, the result kind is Timeout, and the process is torn down, never
orphaned. A malformed line instead ends the run earlier with
ProtocolViolation; in every case the run terminates. -/
theorem c5_timeout_amended (p : CapabilityPolicy)
    (infer : String → String → InferResult) (lines : List PluginLine)
    (code : Int) (elapsed : ℚ)
    (h : ∀ l ∈ lines, l.isCallRequest = true) :
    (runExecution p infer true lines false code elapsed).result.kind = .Timeout
    ∧ (bridgeLoop p infer p.timeout 0 lines false code).consumed.length ≤ p.timeout
    ∧ (runExecution p infer true lines false code elapsed).procFinal = .terminated := by
  have ht := bridgeLoop_no_output_timeout p infer p.timeout 0 lines code h
  refine ⟨by simp [runExecution, ht, assemble],
    bridgeLoop_consumed_le p infer _ 0 lines false code, ?_⟩
  simp [runExecution, teardown_terminated]

theorem c5_timeout_amended_witness :
    (runExecution policy1 inferOk true [PluginLine.callRequest "m1" "hi"] false 0 1).result.kind
        = .Timeout
    ∧ (runExecution policy1 inferOk true [PluginLine.callRequest "m1" "hi"] false 0 1).procFinal
        = .terminated := by
  obtain ⟨h1, h2, h3⟩ :=
    c5_timeout_amended policy1 inferOk [PluginLine.callRequest "m1" "hi"] 0 1 (by decide)
  exact ⟨h1, h3⟩

/-- C6: allow-list enforcement is total and the rejection reasons are
distinct — a model outside the allow-set is rejected with CallError
"model not permitted" on every attempt regardless of prompt content and
ledger state; an over-long prompt is rejected with "prompt too long"; a
request beyond the remaining quota with "call budget exceeded"; and the
three reasons are pairwise distinct. -/
theorem c6_allow_list_total (p : CapabilityPolicy)
    (infer : String → String → InferResult) (ledger : Nat) (m pr : String) :
    (isModelAllowed p m = false →
      handleRequest p infer ledger m pr = (ledger, .callError "model not permitted"))
    ∧ (isModelAllowed p m = true → isPromptLengthOk p pr = false →
      handleRequest p infer ledger m pr = (ledger, .callError "prompt too long"))
    ∧ (isModelAllowed p m = true → isPromptLengthOk p pr = true →
        hasCallQuota p ledger = false →
      handleRequest p infer ledger m pr = (ledger, .callError "call budget exceeded"))
    ∧ ("model not permitted" ≠ "prompt too long"
        ∧ "model not permitted" ≠ "call budget exceeded"
        ∧ "prompt too long" ≠ "call budget exceeded") := by
  refine ⟨?_, ?_, ?_, by decide⟩
  · intro hm
    simp [handleRequest, validate, hm]
  · intro hm hp
    simp [handleRequest, validate, hm, hp]
  · intro hm hp hq
    simp [handleRequest, validate, hm, hp, hq]

theorem c6_allow_list_total_witness :
    handleRequest policy1 inferOk 0 "m2" "hi" = (0, .callError "model not permitted")
    ∧ handleRequest policy1 inferOk 0 "m1" "this prompt is too long"
        = (0, .callError "prompt too long")
    ∧ handleRequest policy1 inferOk 1 "m1" "hi" = (1, .callError "call budget exceeded") := by
  obtain ⟨ha, _, _, _⟩ := c6_allow_list_total policy1 inferOk 0 "m2" "hi"
  obtain ⟨_, hb, _, _⟩ := c6_allow_list_total policy1 inferOk 0 "m1" "this prompt is too long"
  obtain ⟨_, _, hc, _⟩ := c6_allow_list_total policy1 inferOk 1 "m1" "hi"
  exact ⟨ha (by decide), hb (by decide) (by decide), hc (by decide) (by decide) (by decide)⟩

/-- C7: the run API's result serializes to exactly the record with fields
success, output, error, error_type, elapsed_seconds, with success a boolean,
output and error string-or-null, error_type string-or-null, elapsed_seconds
a number — and the frontend's runPlugin reads the success, output, error and
error_type fields of every such response, mapping success to its status
field. -/
theorem c7_run_api_shape (r : ExecutionResult) :
    (serializeResult r).map Prod.fst
      = ["success", "output", "error", "error_type", "elapsed_seconds"]
    ∧ (∃ b, jsGet (serializeResult r) "success" = some (.bool b)
        ∧ (b = true ↔ r.kind = .Success))
    ∧ jsGet (serializeResult r) "output" = some (optStr r.output)
    ∧ jsGet (serializeResult r) "error" = some (optStr r.error)
    ∧ (∃ v, jsGet (serializeResult r) "error_type" = some v
        ∧ (v = .null ∨ ∃ s, v = .str s))
    ∧ jsGet (serializeResult r) "elapsed_seconds" = some (.num r.elapsed)
    ∧ jsGet (runPluginObj (serializeResult r)) "status"
        = some (.str (if r.kind = .Success then "success" else "error")) := by
  refine ⟨rfl, ⟨decide (r.kind = .Success), rfl, by simp⟩, rfl, rfl, ?_, rfl, ?_⟩
  · refine ⟨_, rfl, ?_⟩
    by_cases hk : r.kind = .Success
    · exact Or.inl (by simp [hk])
    · exact Or.inr ⟨kindTag r.kind, by simp [hk]⟩
  · by_cases hk : r.kind = .Success <;>
      simp [runPluginObj, serializeResult, jsGet, truthyOpt, truthy, hk]

/-- C8: every invocation of the sandbox launcher that spawns the isolated
interpreter does so with the runtime directory and the script directory
mounted at the fixed logical paths / and /scripts, and with the wall-clock
and memory ceilings passed as explicit launch parameters of the runtime. -/
theorem c8_launcher_limits (arg : Option String) (fileExists : String → Bool)
    (dirOfFile baseOfFile : String → String) (args : List String)
    (h : runPythonWasm arg fileExists dirOfFile baseOfFile = .spawn args) :
    ∃ d n, args = wasmedgeArgs d n
    ∧ ["--dir", "/:/opt/wasmedge-python"] <:+: args
    ∧ ["--dir", "/scripts:" ++ d] <:+: args
    ∧ ["--time-limit", "10000"] <:+: args
    ∧ ["--memory-page-limit", "2048"] <:+: args := by
  cases arg with
  | none => simp [runPythonWasm] at h
  | some f =>
    by_cases h0 : f = ""
    · simp [runPythonWasm, h0] at h
    · by_cases h1 : fileExists f
      · have hargs : args = wasmedgeArgs (dirOfFile f) (baseOfFile f) := by
          simp [runPythonWasm, h0, h1] at h
          exact h.symm
        subst hargs
        refine ⟨dirOfFile f, baseOfFile f, rfl, ?_, ?_, ?_, ?_⟩
        · exact ⟨[], ["--dir", "/scripts:" ++ dirOfFile f, "--time-limit", "10000",
            "--memory-page-limit", "2048", wasmPython,
            "/scripts/" ++ baseOfFile f], rfl⟩
        · exact ⟨["--dir", "/:/opt/wasmedge-python"], ["--time-limit", "10000",
            "--memory-page-limit", "2048", wasmPython,
            "/scripts/" ++ baseOfFile f], rfl⟩
        · exact ⟨["--dir", "/:/opt/wasmedge-python", "--dir",
            "/scripts:" ++ dirOfFile f], ["--memory-page-limit", "2048", wasmPython,
            "/scripts/" ++ baseOfFile f], rfl⟩
        · exact ⟨["--dir", "/:/opt/wasmedge-python", "--dir",
            "/scripts:" ++ dirOfFile f, "--time-limit", "10000"], [wasmPython,
            "/scripts/" ++ baseOfFile f], rfl⟩
      · simp [runPythonWasm, h0, h1] at h

theorem c8_launcher_limits_witness :
    ∃ d n, wasmedgeArgs "/w" "x.py" = wasmedgeArgs d n
    ∧ ["--dir", "/:/opt/wasmedge-python"] <:+: wasmedgeArgs "/w" "x.py"
    ∧ ["--dir", "/scripts:" ++ d] <:+: wasmedgeArgs "/w" "x.py"
    ∧ ["--time-limit", "10000"] <:+: wasmedgeArgs "/w" "x.py"
    ∧ ["--memory-page-limit", "2048"] <:+: wasmedgeArgs "/w" "x.py" :=
  c8_launcher_limits (some "/w/x.py") (fun _ => true) (fun _ => "/w") (fun _ => "x.py")
    (wasmedgeArgs "/w" "x.py") rfl

/-- C9: every spawned isolated process carries exactly three capabilities —
the runtime-directory mount, the script-directory mount, and stdio — and no
network capability is ever among them, for every invocation of the
launcher. -/
theorem c9_capability_set (arg : Option String) (fileExists : String → Bool)
    (dirOfFile baseOfFile : String → String) (args : List String)
    (h : runPythonWasm arg fileExists dirOfFile baseOfFile = .spawn args) :
    ∃ d, capsOf args
        = [.stdio, .dirMount "/:/opt/wasmedge-python", .dirMount ("/scripts:" ++ d)]
      ∧ (capsOf args).length = 3
      ∧ Capability.network ∉ capsOf args := by
  cases arg with
  | none => simp [runPythonWasm] at h
  | some f =>
    by_cases h0 : f = ""
    · simp [runPythonWasm, h0] at h
    · by_cases h1 : fileExists f
      · have hargs : args = wasmedgeArgs (dirOfFile f) (baseOfFile f) := by
          simp [runPythonWasm, h0, h1] at h
          exact h.symm
        subst hargs
        refine ⟨dirOfFile f, rfl, rfl, ?_⟩
        rw [show capsOf (wasmedgeArgs (dirOfFile f) (baseOfFile f))
          = [.stdio, .dirMount "/:/opt/wasmedge-python",
             .dirMount ("/scripts:" ++ dirOfFile f)] from rfl]
        simp
      · simp [runPythonWasm, h0, h1] at h

theorem c9_capability_set_witness :
    ∃ d, capsOf (wasmedgeArgs "/w" "x.py")
        = [.stdio, .dirMount "/:/opt/wasmedge-python", .dirMount ("/scripts:" ++ d)]
      ∧ (capsOf (wasmedgeArgs "/w" "x.py")).length = 3
      ∧ Capability.network ∉ capsOf (wasmedgeArgs "/w" "x.py") :=
  c9_capability_set (some "/w/x.py") (fun _ => true) (fun _ => "/w") (fun _ => "x.py")
    (wasmedgeArgs "/w" "x.py") rfl

/-- C10: for every backend response with success = false, the Runner page
displays the fixed text "Execution failed" and never the backend's error
detail — runPlugin returns the detail under the field named error, while the
Runner's result handler reads a field named message that runPlugin never
sets. -/
theorem c10_runner_error_detail_lost (data : JsObj)
    (h : jsGet data "success" = some (.bool false)) :
    handleRunResult (runPluginObj data) = ⟨false, .str "Execution failed"⟩ := by
  simp only [jsGet] at h
  simp [handleRunResult, runPluginObj, jsGet, truthyOpt, truthy, jsOr, h]

theorem c10_runner_error_detail_lost_witness :
    handleRunResult (runPluginObj
        [("success", .bool false), ("error", .str "model not permitted")])
      = ⟨false, .str "Execution failed"⟩ :=
  c10_runner_error_detail_lost
    [("success", .bool false), ("error", .str "model not permitted")] rfl

end WasmForge
